import Mathlib

/-!
# go-search: the `run` command (`cmd/go-search/run.go`)

A shallow embedding of the handler `runCmd.Run`.  The handler is a straight-line
driver around collaborators that live in other packages (`environments`,
`algorithms`, `search`, `os`, `cobra`).  Those collaborators are taken as
parameters (`World`); the handler itself is translated statement by statement
into a function that returns the ordered list of observable events it produces
together with the way control leaves it (normal return, or `os.Exit`).
-/

namespace GoSearch

/-- Go `error` value: `none` is `nil`, `some s` is a non-nil error whose
`Error()` text is `s`. -/
abbrev GoError := Option String

/-- The Go type `map[string]string`, as an association list read through
`List.lookup`. -/
abbrev StringMap := List (String × String)

/-- The struct `runFlagsCfg` (run.go 14-19).  The fields `on` and `with` carry a
trailing underscore because both words are reserved in Lean. -/
structure runFlagsCfg where
  on_ : String
  load : String
  with_ : String
  customSearchParams : StringMap
deriving DecidableEq, Repr

/-- The flag defaults installed by `init` (run.go 95-98): three empty strings and
the empty map `map[string]string{}`. -/
def initFlags : runFlagsCfg :=
  ⟨"", "", "", []⟩

/-- Modelled from the spec: the type `search.Context` of package `pkg/search` is
not part of the sources at hand.  The handler builds it from the single field
`CustomSearchParams` (run.go 79-81), which the spec describes as "an immutable
mapping from parameter name to string value". -/
structure Context where
  CustomSearchParams : StringMap
deriving DecidableEq, Repr

/-- The collaborators called by the handler.  Every Go function returning
`(T, error)` is a function into `T × GoError`; the handler looks at the value
only when the error is nil, and a collaborator that returns a nil error is taken
to return a usable (non-nil) value.  Each collaborator is called at most once per
execution, so a function of the arguments is enough. -/
structure World (Env Algo File Result : Type) where
  /-- The error returned by `cmd.Help()`. -/
  Help : GoError
  /-- The function `environments.GetEnvironment`. -/
  GetEnvironment : String → Env × GoError
  /-- The function `os.Open`. -/
  Open : String → File × GoError
  /-- The function `environments.LoadEnvironmentFrom`. -/
  LoadEnvironmentFrom : File → Env × GoError
  /-- The method `(*os.File).Close`. -/
  Close : File → GoError
  /-- The method `Environment.Validate`. -/
  Validate : Env → GoError
  /-- The method `Environment.Name`. -/
  Name : Env → String
  /-- The function `algorithms.GetAlgorithm`. -/
  GetAlgorithm : String → Algo × GoError
  /-- The method `Algorithm.Run`. -/
  Run : Algo → Context → Env → Result × GoError

/-- Observable events of one execution of the handler, in program order.  A
call event records the arguments and what the call returned. -/
inductive Event (Env Algo File Result : Type) where
  | help (err : GoError)
  | getEnvironment (name : String) (env : Env) (err : GoError)
  | osOpen (path : String) (f : File) (err : GoError)
  | loadEnvironmentFrom (f : File) (env : Env) (err : GoError)
  | close (f : File) (err : GoError)
  | validate (env : Env) (err : GoError)
  | getAlgorithm (name : String) (algo : Algo) (err : GoError)
  | run (algo : Algo) (ctx : Context) (env : Env) (result : Result) (err : GoError)
  | stderr (msg : String)
  | print (result : Result)
  | osExit (code : Nat)
  | nilPanic
deriving DecidableEq, Repr

/-- How control leaves a block of the handler: it falls through with a value, or
the process has been terminated with a status. -/
inductive Flow (α : Type) where
  | next (a : α)
  | exited (code : Nat)
deriving DecidableEq, Repr

/-- A block of the handler: the events it produced and how control left it. -/
structure Proc (E α : Type) where
  trace : List E
  flow : Flow α
deriving DecidableEq, Repr

/-- Sequential composition: the second block runs only when the first one fell
through; after `os.Exit` nothing else runs. -/
def Proc.bind {E α β : Type} (p : Proc E α) (k : α → Proc E β) : Proc E β :=
  match p.flow with
  | .next a => ⟨p.trace ++ (k a).trace, (k a).flow⟩
  | .exited c => ⟨p.trace, .exited c⟩

/-- The process status: `os.Exit(c)` gives `c`; a handler that returns lets the
program end normally, status 0 (a nil-interface panic ends a Go program with
status 2). -/
def exitStatus {α : Type} : Flow α → Nat
  | .next _ => 0
  | .exited c => c

section Handler

variable {Env Algo File Result : Type}

/-- Lines 35-61 of run.go: the `if / else if` chain that assigns the local `env`.
The result is the value of `env` afterwards (`none` is the nil interface the
variable was declared with on line 31). -/
def resolveEnvironment (w : World Env Algo File Result) (runFlags : runFlagsCfg) :
    Proc (Event Env Algo File Result) (Option Env) :=
  if runFlags.on_ = "" ∧ runFlags.load = "" then
    ⟨[.help w.Help, .osExit 1], .exited 1⟩
  else if runFlags.on_ ≠ "" ∧ runFlags.load ≠ "" then
    ⟨[.help w.Help, .osExit 1], .exited 1⟩
  else if runFlags.on_ ≠ "" then
    match w.GetEnvironment runFlags.on_ with
    | (env, some e) =>
      ⟨[.getEnvironment runFlags.on_ env (some e),
        .stderr ("Could not get pre-made environment " ++ runFlags.on_ ++ ": " ++ e ++ "\n"),
        .osExit 1], .exited 1⟩
    | (env, none) => ⟨[.getEnvironment runFlags.on_ env none], .next (some env)⟩
  else if runFlags.load ≠ "" then
    match w.Open runFlags.load with
    | (f, some e) =>
      ⟨[.osOpen runFlags.load f (some e),
        .stderr ("Could not open env file at " ++ runFlags.load ++ ": " ++ e),
        .osExit 1], .exited 1⟩
    | (f, none) =>
      match w.LoadEnvironmentFrom f with
      | (env, some e) =>
        ⟨[.osOpen runFlags.load f none,
          .loadEnvironmentFrom f env (some e),
          .close f (w.Close f),
          .stderr ("Could not load environment from " ++ runFlags.load ++ ": " ++ e ++ "\n"),
          .osExit 1], .exited 1⟩
      | (env, none) =>
        ⟨[.osOpen runFlags.load f none,
          .loadEnvironmentFrom f env none,
          .close f (w.Close f)], .next (some env)⟩
  else
    ⟨[], .next none⟩

/-- Lines 63-66 of run.go: `env.Validate()`.  Calling a method on the nil
interface is a runtime panic. -/
def validateEnvironment (w : World Env Algo File Result) (env : Option Env) :
    Proc (Event Env Algo File Result) Env :=
  match env with
  | none => ⟨[.nilPanic], .exited 2⟩
  | some env =>
    match w.Validate env with
    | some e =>
      ⟨[.validate env (some e), .stderr ("Invalid environment: " ++ e ++ "\n"), .osExit 1],
        .exited 1⟩
    | none => ⟨[.validate env none], .next env⟩

/-- Lines 68-77 of run.go: the algorithm selection. -/
def resolveAlgorithm (w : World Env Algo File Result) (runFlags : runFlagsCfg) :
    Proc (Event Env Algo File Result) Algo :=
  if runFlags.with_ = "" then
    ⟨[.help w.Help, .osExit 1], .exited 1⟩
  else
    match w.GetAlgorithm runFlags.with_ with
    | (algo, some e) =>
      ⟨[.getAlgorithm runFlags.with_ algo (some e),
        .stderr ("Could not get algorithm " ++ runFlags.with_ ++ ": " ++ e ++ "\n"),
        .osExit 1], .exited 1⟩
    | (algo, none) => ⟨[.getAlgorithm runFlags.with_ algo none], .next algo⟩

/-- Lines 79-87 of run.go: build the context, run the algorithm. -/
def runAlgorithm (w : World Env Algo File Result) (runFlags : runFlagsCfg)
    (algo : Algo) (env : Env) : Proc (Event Env Algo File Result) Result :=
  let ctx : Context := ⟨runFlags.customSearchParams⟩
  match w.Run algo ctx env with
  | (result, some e) =>
    ⟨[.run algo ctx env result (some e),
      .stderr ("Error while running algorithm " ++ runFlags.with_ ++ " on " ++ w.Name env
        ++ ": " ++ e ++ "\n"),
      .osExit 1], .exited 1⟩
  | (result, none) => ⟨[.run algo ctx env result none], .next result⟩

/-- Lines 63-89 of run.go: everything after the environment selection. -/
def afterEnvironment (w : World Env Algo File Result) (runFlags : runFlagsCfg)
    (env : Option Env) : Proc (Event Env Algo File Result) Unit :=
  (validateEnvironment w env).bind fun env =>
  (resolveAlgorithm w runFlags).bind fun algo =>
  (runAlgorithm w runFlags algo env).bind fun result =>
  ⟨[.print result], .next ()⟩

/-- The handler `runCmd.Run` (run.go 30-90). -/
def Run (w : World Env Algo File Result) (runFlags : runFlagsCfg) :
    Proc (Event Env Algo File Result) Unit :=
  (resolveEnvironment w runFlags).bind fun env => afterEnvironment w runFlags env

end Handler

/-! ## Vocabulary for the statements -/

section Vocabulary

variable {Env Algo File Result : Type}

/-- The six calls that make up the pipeline: `GetEnvironment`, `os.Open`,
`LoadEnvironmentFrom`, `Validate`, `GetAlgorithm`, `Algorithm.Run`. -/
def Event.isStep : Event Env Algo File Result → Bool
  | .getEnvironment _ _ _ => true
  | .osOpen _ _ _ => true
  | .loadEnvironmentFrom _ _ _ => true
  | .validate _ _ => true
  | .getAlgorithm _ _ _ => true
  | .run _ _ _ _ _ => true
  | _ => false

/-- The error value a call event returned (`none` for events that are not calls
returning an error). -/
def Event.err : Event Env Algo File Result → GoError
  | .help e => e
  | .getEnvironment _ _ e => e
  | .osOpen _ _ e => e
  | .loadEnvironmentFrom _ _ e => e
  | .close _ e => e
  | .validate _ e => e
  | .getAlgorithm _ _ e => e
  | .run _ _ _ _ e => e
  | _ => none

/-- Recogniser: `cmd.Help()`. -/
def Event.isHelp : Event Env Algo File Result → Bool
  | .help _ => true
  | _ => false

/-- Recogniser: `environments.GetEnvironment`. -/
def Event.isGetEnvironment : Event Env Algo File Result → Bool
  | .getEnvironment _ _ _ => true
  | _ => false

/-- Recogniser: `os.Open`. -/
def Event.isOpen : Event Env Algo File Result → Bool
  | .osOpen _ _ _ => true
  | _ => false

/-- Recogniser: `environments.LoadEnvironmentFrom`. -/
def Event.isLoad : Event Env Algo File Result → Bool
  | .loadEnvironmentFrom _ _ _ => true
  | _ => false

/-- Recogniser: `f.Close()`. -/
def Event.isClose : Event Env Algo File Result → Bool
  | .close _ _ => true
  | _ => false

/-- Recogniser: `env.Validate()`. -/
def Event.isValidate : Event Env Algo File Result → Bool
  | .validate _ _ => true
  | _ => false

/-- Recogniser: `algorithms.GetAlgorithm`. -/
def Event.isGetAlgorithm : Event Env Algo File Result → Bool
  | .getAlgorithm _ _ _ => true
  | _ => false

/-- Recogniser: `algo.Run`. -/
def Event.isRun : Event Env Algo File Result → Bool
  | .run _ _ _ _ _ => true
  | _ => false

/-- Recogniser: a write to `os.Stderr`. -/
def Event.isStderr : Event Env Algo File Result → Bool
  | .stderr _ => true
  | _ => false

/-- Recogniser: `result.Print()`. -/
def Event.isPrint : Event Env Algo File Result → Bool
  | .print _ => true
  | _ => false

/-- Recogniser: the process ends (`os.Exit`, or a runtime panic). -/
def Event.isTerminate : Event Env Algo File Result → Bool
  | .osExit _ => true
  | .nilPanic => true
  | _ => false

/-- Events up to (not including) the first one recognised by `p`. -/
def before (p : Event Env Algo File Result → Bool) (t : List (Event Env Algo File Result)) :
    List (Event Env Algo File Result) :=
  t.takeWhile fun x => !p x

/-- The world `w` with other error values returned by `cmd.Help` and `Close`. -/
def World.withDiscarded (w : World Env Algo File Result) (help : GoError)
    (close : File → GoError) : World Env Algo File Result :=
  ⟨help, w.GetEnvironment, w.Open, w.LoadEnvironmentFrom, close, w.Validate, w.Name,
    w.GetAlgorithm, w.Run⟩

/-- An event without the error value of `cmd.Help` and `Close`; every other
event is kept as it is. -/
def Event.forgetDiscarded : Event Env Algo File Result → Event Env Algo File Result
  | .help _ => .help none
  | .close f _ => .close f none
  | ev => ev

/-- The text `sub` occurs in the text `msg`. -/
def Contains (msg sub : String) : Prop := sub.data <:+: msg.data

instance (msg sub : String) : Decidable (Contains msg sub) := by
  unfold Contains; infer_instance

/-- The environment selection is missing: `--on` and `--load` are both empty. -/
def selectionMissing (runFlags : runFlagsCfg) : Prop :=
  runFlags.on_ = "" ∧ runFlags.load = ""

/-- The environment selection is conflicting: `--on` and `--load` are both set. -/
def selectionConflicting (runFlags : runFlagsCfg) : Prop :=
  runFlags.on_ ≠ "" ∧ runFlags.load ≠ ""

/-- Only `--on` is set. -/
def onlyOn (runFlags : runFlagsCfg) : Prop :=
  runFlags.on_ ≠ "" ∧ runFlags.load = ""

/-- Only `--load` is set. -/
def onlyLoad (runFlags : runFlagsCfg) : Prop :=
  runFlags.on_ = "" ∧ runFlags.load ≠ ""

/-- What the collaborators return makes lines 35-61 assign `env` without an
error: only `--on` is set and the lookup succeeds, or only `--load` is set and
both the open and the load succeed. -/
def EnvSelected (w : World Env Algo File Result) (fl : runFlagsCfg) (env : Env) : Prop :=
  (onlyOn fl ∧ w.GetEnvironment fl.on_ = (env, none)) ∨
  (onlyLoad fl ∧ ∃ f, w.Open fl.load = (f, none) ∧ w.LoadEnvironmentFrom f = (env, none))

/-- The execution `p` reports the failure of the call `ev`, whose error text is
`e`: after `ev` come only the events `cleanup`, one message on the error stream
that contains `e`, and `os.Exit(1)`; no call before `ev` failed, nothing was
written to the error stream before, and no `Result` is printed at all. -/
def ReportsFailure (p : Proc (Event Env Algo File Result) Unit)
    (ev : Event Env Algo File Result) (cleanup : List (Event Env Algo File Result))
    (e : String) : Prop :=
  ∃ pre m,
    p.trace = pre ++ ev :: (cleanup ++ [.stderr m, .osExit 1]) ∧
    Contains m e ∧
    (∀ x ∈ pre, (x.isStep = true → x.err = none) ∧ x.isStderr = false ∧
      x.isTerminate = false) ∧
    (∀ x ∈ p.trace, x.isPrint = false) ∧
    p.flow = .exited 1 ∧
    exitStatus p.flow = 1

instance (fl : runFlagsCfg) : Decidable (selectionMissing fl) := by
  unfold selectionMissing; infer_instance

instance (fl : runFlagsCfg) : Decidable (selectionConflicting fl) := by
  unfold selectionConflicting; infer_instance

instance (fl : runFlagsCfg) : Decidable (onlyOn fl) := by
  unfold onlyOn; infer_instance

instance (fl : runFlagsCfg) : Decidable (onlyLoad fl) := by
  unfold onlyLoad; infer_instance

end Vocabulary

/-! ## Concrete worlds used to exercise the handler -/

section Samples

/-- A world in which every collaborator succeeds: environments, algorithms and
files are named by strings, a result is a success flag. -/
def okWorld : World String String String Bool :=
  ⟨none, fun n => (n, none), fun p => (p, none), fun f => ("env:" ++ f, none),
    fun _ => none, fun _ => none, fun e => e, fun n => (n, none),
    fun _ _ _ => (false, none)⟩

/-- Flags `--on maze --with bfs --params depth=3`. -/
def onFlags : runFlagsCfg := ⟨"maze", "", "bfs", [("depth", "3")]⟩

/-- Flags `--load m.json --with bfs`. -/
def loadFlags : runFlagsCfg := ⟨"", "m.json", "bfs", []⟩

/-- A world like `okWorld` in which no environment is registered: every lookup
by name fails. -/
def noEnvWorld : World String String String Bool :=
  ⟨none, fun _ => ("", some "unknown environment"), fun p => (p, none),
    fun f => ("env:" ++ f, none), fun _ => none, fun _ => none, fun e => e,
    fun n => (n, none), fun _ _ _ => (false, none)⟩

/-- A world like `okWorld` in which every environment fails validation. -/
def invalidEnvWorld : World String String String Bool :=
  ⟨none, fun n => (n, none), fun p => (p, none), fun f => ("env:" ++ f, none),
    fun _ => none, fun _ => some "goal unreachable", fun e => e, fun n => (n, none),
    fun _ _ _ => (false, none)⟩

/-- A world like `okWorld` in which `Close` and `cmd.Help` return errors. -/
def closeFailsWorld : World String String String Bool :=
  ⟨some "help failed", fun n => (n, none), fun p => (p, none), fun f => ("env:" ++ f, none),
    fun _ => some "close failed", fun _ => none, fun e => e, fun n => (n, none),
    fun _ _ _ => (false, none)⟩

/-- A world like `okWorld` in which every algorithm run fails. -/
def runFailsWorld : World String String String Bool :=
  ⟨none, fun n => (n, none), fun p => (p, none), fun f => ("env:" ++ f, none),
    fun _ => none, fun _ => none, fun e => e, fun n => (n, none),
    fun _ _ _ => (false, some "out of memory")⟩

/-- A world like `okWorld` whose algorithms read the context: the result is
`true` exactly when the parameter `depth` is `3`. -/
def paramWorld : World String String String Bool :=
  ⟨none, fun n => (n, none), fun p => (p, none), fun f => ("env:" ++ f, none),
    fun _ => none, fun _ => none, fun e => e, fun n => (n, none),
    fun _ ctx _ => (ctx.CustomSearchParams.lookup "depth" == some "3", none)⟩

/-- Flags `--on maze` with no `--with`. -/
def noWithFlags : runFlagsCfg := ⟨"maze", "", "", []⟩

end Samples

section Paths

variable {Env Algo File Result : Type}

theorem contains_self (s : String) : Contains s s := List.infix_refl _

theorem contains_append_left {s x : String} (t : String) (h : Contains s x) :
    Contains (s ++ t) x := by
  unfold Contains at *
  rw [String.data_append]
  exact h.trans (List.infix_append' [] s.data t.data)

theorem contains_append_right {t x : String} (s : String) (h : Contains t x) :
    Contains (s ++ t) x := by
  unfold Contains at *
  rw [String.data_append]
  exact h.trans (List.suffix_append s.data t.data).isInfix

/-- The six ways through lines 35-61: help (missing or conflicting selection),
a failed lookup, a successful lookup, a failed open, a failed load, a
successful load. -/
theorem resolveEnvironment_paths (w : World Env Algo File Result) (fl : runFlagsCfg) :
    ((selectionMissing fl ∨ selectionConflicting fl) ∧
        resolveEnvironment w fl = ⟨[.help w.Help, .osExit 1], .exited 1⟩)
    ∨ (onlyOn fl ∧ ∃ env e, w.GetEnvironment fl.on_ = (env, some e) ∧
        resolveEnvironment w fl =
          ⟨[.getEnvironment fl.on_ env (some e),
            .stderr ("Could not get pre-made environment " ++ fl.on_ ++ ": " ++ e ++ "\n"),
            .osExit 1], .exited 1⟩)
    ∨ (onlyOn fl ∧ ∃ env, w.GetEnvironment fl.on_ = (env, none) ∧
        resolveEnvironment w fl = ⟨[.getEnvironment fl.on_ env none], .next (some env)⟩)
    ∨ (onlyLoad fl ∧ ∃ f e, w.Open fl.load = (f, some e) ∧
        resolveEnvironment w fl =
          ⟨[.osOpen fl.load f (some e),
            .stderr ("Could not open env file at " ++ fl.load ++ ": " ++ e),
            .osExit 1], .exited 1⟩)
    ∨ (onlyLoad fl ∧ ∃ f env e, w.Open fl.load = (f, none) ∧
        w.LoadEnvironmentFrom f = (env, some e) ∧
        resolveEnvironment w fl =
          ⟨[.osOpen fl.load f none, .loadEnvironmentFrom f env (some e), .close f (w.Close f),
            .stderr ("Could not load environment from " ++ fl.load ++ ": " ++ e ++ "\n"),
            .osExit 1], .exited 1⟩)
    ∨ (onlyLoad fl ∧ ∃ f env, w.Open fl.load = (f, none) ∧
        w.LoadEnvironmentFrom f = (env, none) ∧
        resolveEnvironment w fl =
          ⟨[.osOpen fl.load f none, .loadEnvironmentFrom f env none, .close f (w.Close f)],
            .next (some env)⟩) := by
  unfold selectionMissing selectionConflicting onlyOn onlyLoad
  by_cases hon : fl.on_ = "" <;> by_cases hload : fl.load = ""
  · exact Or.inl ⟨Or.inl ⟨hon, hload⟩, by simp [resolveEnvironment, hon, hload]⟩
  · rcases ho : w.Open fl.load with ⟨f, _ | e⟩
    · rcases hl : w.LoadEnvironmentFrom f with ⟨env, _ | e⟩
      · exact Or.inr (Or.inr (Or.inr (Or.inr (Or.inr ⟨⟨hon, hload⟩, f, env, rfl, hl,
          by simp [resolveEnvironment, hon, hload, ho, hl]⟩))))
      · exact Or.inr (Or.inr (Or.inr (Or.inr (Or.inl ⟨⟨hon, hload⟩, f, env, e, rfl, hl,
          by simp [resolveEnvironment, hon, hload, ho, hl]⟩))))
    · exact Or.inr (Or.inr (Or.inr (Or.inl ⟨⟨hon, hload⟩, f, e, rfl,
        by simp [resolveEnvironment, hon, hload, ho]⟩)))
  · rcases hg : w.GetEnvironment fl.on_ with ⟨env, _ | e⟩
    · exact Or.inr (Or.inr (Or.inl ⟨⟨hon, hload⟩, env, rfl,
        by simp [resolveEnvironment, hon, hload, hg]⟩))
    · exact Or.inr (Or.inl ⟨⟨hon, hload⟩, env, e, rfl,
        by simp [resolveEnvironment, hon, hload, hg]⟩)
  · exact Or.inl ⟨Or.inr ⟨hon, hload⟩, by simp [resolveEnvironment, hon, hload]⟩

/-- The five ways through lines 63-89 once `env` holds an environment: a failed
validation, a missing `--with`, a failed algorithm lookup, a failed run, and the
successful run that prints its result. -/
theorem afterEnvironment_paths (w : World Env Algo File Result) (fl : runFlagsCfg)
    (env : Env) :
    (∃ e, w.Validate env = some e ∧
        afterEnvironment w fl (some env) =
          ⟨[.validate env (some e), .stderr ("Invalid environment: " ++ e ++ "\n"), .osExit 1],
            .exited 1⟩)
    ∨ (w.Validate env = none ∧ fl.with_ = "" ∧
        afterEnvironment w fl (some env) =
          ⟨[.validate env none, .help w.Help, .osExit 1], .exited 1⟩)
    ∨ (w.Validate env = none ∧ fl.with_ ≠ "" ∧ ∃ algo e,
        w.GetAlgorithm fl.with_ = (algo, some e) ∧
        afterEnvironment w fl (some env) =
          ⟨[.validate env none, .getAlgorithm fl.with_ algo (some e),
            .stderr ("Could not get algorithm " ++ fl.with_ ++ ": " ++ e ++ "\n"),
            .osExit 1], .exited 1⟩)
    ∨ (w.Validate env = none ∧ fl.with_ ≠ "" ∧ ∃ algo r e,
        w.GetAlgorithm fl.with_ = (algo, none) ∧
        w.Run algo ⟨fl.customSearchParams⟩ env = (r, some e) ∧
        afterEnvironment w fl (some env) =
          ⟨[.validate env none, .getAlgorithm fl.with_ algo none,
            .run algo ⟨fl.customSearchParams⟩ env r (some e),
            .stderr ("Error while running algorithm " ++ fl.with_ ++ " on " ++ w.Name env
              ++ ": " ++ e ++ "\n"),
            .osExit 1], .exited 1⟩)
    ∨ (w.Validate env = none ∧ fl.with_ ≠ "" ∧ ∃ algo r,
        w.GetAlgorithm fl.with_ = (algo, none) ∧
        w.Run algo ⟨fl.customSearchParams⟩ env = (r, none) ∧
        afterEnvironment w fl (some env) =
          ⟨[.validate env none, .getAlgorithm fl.with_ algo none,
            .run algo ⟨fl.customSearchParams⟩ env r none, .print r], .next ()⟩) := by
  rcases hv : w.Validate env with _ | e
  · by_cases hw : fl.with_ = ""
    · exact Or.inr (Or.inl ⟨rfl, hw, by
        simp [afterEnvironment, validateEnvironment, resolveAlgorithm, Proc.bind, hv, hw]⟩)
    · rcases ha : w.GetAlgorithm fl.with_ with ⟨algo, _ | e⟩
      · rcases hr : w.Run algo ⟨fl.customSearchParams⟩ env with ⟨r, _ | e⟩
        · exact Or.inr (Or.inr (Or.inr (Or.inr ⟨rfl, hw, algo, r, rfl, hr, by
            simp [afterEnvironment, validateEnvironment, resolveAlgorithm, runAlgorithm,
              Proc.bind, hv, hw, ha, hr]⟩)))
        · exact Or.inr (Or.inr (Or.inr (Or.inl ⟨rfl, hw, algo, r, e, rfl, hr, by
            simp [afterEnvironment, validateEnvironment, resolveAlgorithm, runAlgorithm,
              Proc.bind, hv, hw, ha, hr]⟩)))
      · exact Or.inr (Or.inr (Or.inl ⟨rfl, hw, algo, e, rfl, by
          simp [afterEnvironment, validateEnvironment, resolveAlgorithm, Proc.bind, hv, hw, ha]⟩))
  · exact Or.inl ⟨e, rfl, by
      simp [afterEnvironment, validateEnvironment, Proc.bind, hv]⟩

/-- When lines 35-61 fall through with an environment, the handler is those
events followed by lines 63-89. -/
theorem Run_of_next (w : World Env Algo File Result) (fl : runFlagsCfg)
    (pre : List (Event Env Algo File Result)) (env : Env)
    (h : resolveEnvironment w fl = ⟨pre, .next (some env)⟩) :
    Run w fl = ⟨pre ++ (afterEnvironment w fl (some env)).trace,
      (afterEnvironment w fl (some env)).flow⟩ := by
  simp [Run, Proc.bind, h]

/-- When lines 35-61 end the process, nothing else runs. -/
theorem Run_of_exited (w : World Env Algo File Result) (fl : runFlagsCfg)
    (pre : List (Event Env Algo File Result)) (c : Nat)
    (h : resolveEnvironment w fl = ⟨pre, .exited c⟩) :
    Run w fl = ⟨pre, .exited c⟩ := by
  simp [Run, Proc.bind, h]

theorem Run_of_selected (w : World Env Algo File Result) (fl : runFlagsCfg) (env : Env)
    (hs : EnvSelected w fl env) :
    ∃ pre, Run w fl = ⟨pre ++ (afterEnvironment w fl (some env)).trace,
        (afterEnvironment w fl (some env)).flow⟩ ∧
      ∀ x ∈ pre, (x.isStep = true → x.err = none) ∧ x.isStderr = false ∧
        x.isTerminate = false ∧ x.isPrint = false ∧ x.isRun = false := by
  rcases hs with ⟨⟨h1, h2⟩, hg⟩ | ⟨⟨h1, h2⟩, f, ho, hl⟩
  · refine ⟨[.getEnvironment fl.on_ env none], ?_, ?_⟩
    · simp [Run, Proc.bind, resolveEnvironment, h1, h2, hg]
    · simp [Event.isStep, Event.err, Event.isStderr, Event.isTerminate, Event.isPrint,
        Event.isRun]
  · refine ⟨[.osOpen fl.load f none, .loadEnvironmentFrom f env none, .close f (w.Close f)],
      ?_, ?_⟩
    · simp [Run, Proc.bind, resolveEnvironment, h1, h2, ho, hl]
    · simp [Event.isStep, Event.err, Event.isStderr, Event.isTerminate, Event.isPrint,
        Event.isRun]

/-- Assembling `ReportsFailure` from the events before the failing call and the
failing tail. -/
theorem reportsFailure_of_trace (p : Proc (Event Env Algo File Result) Unit)
    (pre : List (Event Env Algo File Result)) (ev : Event Env Algo File Result)
    (cleanup : List (Event Env Algo File Result)) (m e : String)
    (ht : p.trace = pre ++ ev :: (cleanup ++ [.stderr m, .osExit 1]))
    (hf : p.flow = .exited 1) (hc : Contains m e)
    (hpre : ∀ x ∈ pre, (x.isStep = true → x.err = none) ∧ x.isStderr = false ∧
      x.isTerminate = false ∧ x.isPrint = false)
    (hev : ev.isPrint = false) (hcl : ∀ x ∈ cleanup, x.isPrint = false) :
    ReportsFailure p ev cleanup e := by
  refine ⟨pre, m, ht, hc, fun x hx => ⟨(hpre x hx).1, (hpre x hx).2.1, (hpre x hx).2.2.1⟩,
    ?_, hf, by simp [hf, exitStatus]⟩
  intro x hx
  rw [ht] at hx
  simp only [List.mem_append, List.mem_cons, List.mem_singleton, List.not_mem_nil,
    or_false] at hx
  rcases hx with hp | rfl | hm | rfl | rfl
  · exact (hpre x hp).2.2.2
  · exact hev
  · exact hcl x hm
  · rfl
  · rfl

/-- Every error a pipeline call returns is reported, stated on what the
collaborators return. -/
theorem pipeline_failures_reported (w : World Env Algo File Result) (fl : runFlagsCfg) :
    (∀ env e, onlyOn fl → w.GetEnvironment fl.on_ = (env, some e) →
      ReportsFailure (Run w fl) (.getEnvironment fl.on_ env (some e)) [] e) ∧
    (∀ f e, onlyLoad fl → w.Open fl.load = (f, some e) →
      ReportsFailure (Run w fl) (.osOpen fl.load f (some e)) [] e) ∧
    (∀ f env e, onlyLoad fl → w.Open fl.load = (f, none) →
      w.LoadEnvironmentFrom f = (env, some e) →
      ReportsFailure (Run w fl) (.loadEnvironmentFrom f env (some e))
        [.close f (w.Close f)] e) ∧
    (∀ env e, EnvSelected w fl env → w.Validate env = some e →
      ReportsFailure (Run w fl) (.validate env (some e)) [] e) ∧
    (∀ env algo e, EnvSelected w fl env → w.Validate env = none → fl.with_ ≠ "" →
      w.GetAlgorithm fl.with_ = (algo, some e) →
      ReportsFailure (Run w fl) (.getAlgorithm fl.with_ algo (some e)) [] e) ∧
    (∀ env algo r e, EnvSelected w fl env → w.Validate env = none → fl.with_ ≠ "" →
      w.GetAlgorithm fl.with_ = (algo, none) →
      w.Run algo ⟨fl.customSearchParams⟩ env = (r, some e) →
      ReportsFailure (Run w fl) (.run algo ⟨fl.customSearchParams⟩ env r (some e)) [] e) := by
  refine ⟨?_, ?_, ?_, ?_, ?_, ?_⟩
  · rintro env e ⟨h1, h2⟩ hg
    have hR : Run w fl = ⟨[.getEnvironment fl.on_ env (some e),
        .stderr ("Could not get pre-made environment " ++ fl.on_ ++ ": " ++ e ++ "\n"),
        .osExit 1], .exited 1⟩ := by
      simp [Run, Proc.bind, resolveEnvironment, h1, h2, hg]
    exact reportsFailure_of_trace _ [] _ [] _ e (by rw [hR]; rfl) (by rw [hR])
      (contains_append_left _ (contains_append_right _ (contains_self e)))
      (by simp) rfl (by simp)
  · rintro f e ⟨h1, h2⟩ ho
    have hR : Run w fl = ⟨[.osOpen fl.load f (some e),
        .stderr ("Could not open env file at " ++ fl.load ++ ": " ++ e),
        .osExit 1], .exited 1⟩ := by
      simp [Run, Proc.bind, resolveEnvironment, h1, h2, ho]
    exact reportsFailure_of_trace _ [] _ [] _ e (by rw [hR]; rfl) (by rw [hR])
      (contains_append_right _ (contains_self e))
      (by simp) rfl (by simp)
  · rintro f env e ⟨h1, h2⟩ ho hl
    have hR : Run w fl = ⟨[.osOpen fl.load f none, .loadEnvironmentFrom f env (some e),
        .close f (w.Close f),
        .stderr ("Could not load environment from " ++ fl.load ++ ": " ++ e ++ "\n"),
        .osExit 1], .exited 1⟩ := by
      simp [Run, Proc.bind, resolveEnvironment, h1, h2, ho, hl]
    exact reportsFailure_of_trace _ [.osOpen fl.load f none] _ [.close f (w.Close f)] _ e
      (by rw [hR]; rfl) (by rw [hR])
      (contains_append_left _ (contains_append_right _ (contains_self e)))
      (by simp [Event.isStep, Event.err, Event.isStderr, Event.isTerminate, Event.isPrint])
      rfl (by simp [Event.isPrint])
  · intro env e hs hv
    obtain ⟨pre, hR, hpre⟩ := Run_of_selected w fl env hs
    have ha : afterEnvironment w fl (some env) = ⟨[.validate env (some e),
        .stderr ("Invalid environment: " ++ e ++ "\n"), .osExit 1], .exited 1⟩ := by
      simp [afterEnvironment, validateEnvironment, Proc.bind, hv]
    rw [ha] at hR
    exact reportsFailure_of_trace _ pre _ [] _ e (by rw [hR]; rfl) (by rw [hR])
      (contains_append_left _ (contains_append_right _ (contains_self e)))
      (fun x hx => ⟨(hpre x hx).1, (hpre x hx).2.1, (hpre x hx).2.2.1, (hpre x hx).2.2.2.1⟩)
      rfl (by simp)
  · intro env algo e hs hv hw hga
    obtain ⟨pre, hR, hpre⟩ := Run_of_selected w fl env hs
    have ha : afterEnvironment w fl (some env) = ⟨[.validate env none,
        .getAlgorithm fl.with_ algo (some e),
        .stderr ("Could not get algorithm " ++ fl.with_ ++ ": " ++ e ++ "\n"),
        .osExit 1], .exited 1⟩ := by
      simp [afterEnvironment, validateEnvironment, resolveAlgorithm, Proc.bind, hv, hw, hga]
    rw [ha] at hR
    refine reportsFailure_of_trace _ (pre ++ [.validate env none]) _ []
      ("Could not get algorithm " ++ fl.with_ ++ ": " ++ e ++ "\n") e
      (by rw [hR]; simp) (by rw [hR])
      (contains_append_left _ (contains_append_right _ (contains_self e))) ?_ rfl (by simp)
    intro x hx
    rcases List.mem_append.1 hx with hx | hx
    · exact ⟨(hpre x hx).1, (hpre x hx).2.1, (hpre x hx).2.2.1, (hpre x hx).2.2.2.1⟩
    · rw [List.mem_singleton.1 hx]
      simp [Event.isStep, Event.err, Event.isStderr, Event.isTerminate, Event.isPrint]
  · intro env algo r e hs hv hw hga hr
    obtain ⟨pre, hR, hpre⟩ := Run_of_selected w fl env hs
    have ha : afterEnvironment w fl (some env) = ⟨[.validate env none,
        .getAlgorithm fl.with_ algo none,
        .run algo ⟨fl.customSearchParams⟩ env r (some e),
        .stderr ("Error while running algorithm " ++ fl.with_ ++ " on " ++ w.Name env
          ++ ": " ++ e ++ "\n"),
        .osExit 1], .exited 1⟩ := by
      simp [afterEnvironment, validateEnvironment, resolveAlgorithm, runAlgorithm, Proc.bind,
        hv, hw, hga, hr]
    rw [ha] at hR
    refine reportsFailure_of_trace _
      (pre ++ [.validate env none, .getAlgorithm fl.with_ algo none]) _ []
      ("Error while running algorithm " ++ fl.with_ ++ " on " ++ w.Name env ++ ": " ++ e
        ++ "\n") e
      (by rw [hR]; simp) (by rw [hR])
      (contains_append_left _ (contains_append_right _ (contains_self e))) ?_ rfl (by simp)
    intro x hx
    rcases List.mem_append.1 hx with hx | hx
    · exact ⟨(hpre x hx).1, (hpre x hx).2.1, (hpre x hx).2.2.1, (hpre x hx).2.2.2.1⟩
    · simp only [List.mem_cons, List.mem_singleton, List.not_mem_nil, or_false] at hx
      rcases hx with rfl | rfl <;>
        simp [Event.isStep, Event.err, Event.isStderr, Event.isTerminate, Event.isPrint]

set_option maxHeartbeats 4000000 in
/-- Every `Run` call of an execution receives the context built on lines 79-81,
and the recorded result and error are what `Run` returned for that context. -/
theorem run_event_call (w : World Env Algo File Result) (fl : runFlagsCfg)
    (algo : Algo) (ctx : Context) (env : Env) (r : Result) (err : GoError) :
    Event.run algo ctx env r err ∈ (Run w fl).trace →
      ctx = ⟨fl.customSearchParams⟩ ∧
      (r, err) = w.Run algo ⟨fl.customSearchParams⟩ env := by
  rcases resolveEnvironment_paths w fl with
    ⟨hb, h⟩ | ⟨hs, env, e, hg, h⟩ | ⟨hs, env, hg, h⟩ | ⟨hs, f, e, ho, h⟩ |
    ⟨hs, f, env, e, ho, hl, h⟩ | ⟨hs, f, env, ho, hl, h⟩
  · simp [Run_of_exited w fl _ _ h]
  · obtain ⟨h1, h2⟩ := hs
    simp +contextual [onlyOn, onlyLoad, h1, h2, Run_of_exited w fl _ _ h, hg]
  · rcases afterEnvironment_paths w fl env with
      ⟨e, hv, ha⟩ | ⟨hv, hw, ha⟩ | ⟨hv, hw, algo, e, hga, ha⟩ |
      ⟨hv, hw, algo, r, e, hga, hr, ha⟩ | ⟨hv, hw, algo, r, hga, hr, ha⟩
    · obtain ⟨h1, h2⟩ := hs
      simp +contextual [onlyOn, onlyLoad, h1, h2, Run_of_next w fl _ _ h, ha, hg, hv]
    · obtain ⟨h1, h2⟩ := hs
      simp +contextual [onlyOn, onlyLoad, h1, h2, Run_of_next w fl _ _ h, ha, hg, hv, hw]
    · obtain ⟨h1, h2⟩ := hs
      simp +contextual [onlyOn, onlyLoad, h1, h2, Run_of_next w fl _ _ h, ha, hg, hv, hw, hga]
    · obtain ⟨h1, h2⟩ := hs
      simp +contextual [onlyOn, onlyLoad, h1, h2, Run_of_next w fl _ _ h, ha, hg, hv, hw, hga, hr]
    · obtain ⟨h1, h2⟩ := hs
      simp +contextual [onlyOn, onlyLoad, h1, h2, Run_of_next w fl _ _ h, ha, hg, hv, hw, hga, hr]
  · obtain ⟨h1, h2⟩ := hs
    simp +contextual [onlyOn, onlyLoad, h1, h2, Run_of_exited w fl _ _ h, ho]
  · obtain ⟨h1, h2⟩ := hs
    simp +contextual [onlyOn, onlyLoad, h1, h2, Run_of_exited w fl _ _ h, ho, hl]
  · rcases afterEnvironment_paths w fl env with
      ⟨e, hv, ha⟩ | ⟨hv, hw, ha⟩ | ⟨hv, hw, algo, e, hga, ha⟩ |
      ⟨hv, hw, algo, r, e, hga, hr, ha⟩ | ⟨hv, hw, algo, r, hga, hr, ha⟩
    · obtain ⟨h1, h2⟩ := hs
      simp +contextual [onlyOn, onlyLoad, h1, h2, Run_of_next w fl _ _ h, ha, ho, hl, hv]
    · obtain ⟨h1, h2⟩ := hs
      simp +contextual [onlyOn, onlyLoad, h1, h2, Run_of_next w fl _ _ h, ha, ho, hl, hv, hw]
    · obtain ⟨h1, h2⟩ := hs
      simp +contextual [onlyOn, onlyLoad, h1, h2, Run_of_next w fl _ _ h, ha, ho, hl, hv, hw, hga]
    · obtain ⟨h1, h2⟩ := hs
      simp +contextual [onlyOn, onlyLoad, h1, h2, Run_of_next w fl _ _ h, ha, ho, hl, hv, hw, hga,
        hr]
    · obtain ⟨h1, h2⟩ := hs
      simp +contextual [onlyOn, onlyLoad, h1, h2, Run_of_next w fl _ _ h, ha, ho, hl, hv, hw, hga,
        hr]

/-- Once the environment is selected and validated and the algorithm found,
`Run` is called with the context of lines 79-81, and a result it returns without
error is the one printed. -/
theorem run_called_with_params (w : World Env Algo File Result) (fl : runFlagsCfg)
    (env : Env) (algo : Algo) (hs : EnvSelected w fl env) (hv : w.Validate env = none)
    (hw : fl.with_ ≠ "") (hga : w.GetAlgorithm fl.with_ = (algo, none)) :
    Event.run algo ⟨fl.customSearchParams⟩ env
        (w.Run algo ⟨fl.customSearchParams⟩ env).1
        (w.Run algo ⟨fl.customSearchParams⟩ env).2 ∈ (Run w fl).trace ∧
    ((w.Run algo ⟨fl.customSearchParams⟩ env).2 = none →
      (Run w fl).trace.filter Event.isPrint =
        [.print (w.Run algo ⟨fl.customSearchParams⟩ env).1]) := by
  obtain ⟨pre, hR, hpre⟩ := Run_of_selected w fl env hs
  have hfil : pre.filter Event.isPrint = [] := by
    rw [List.filter_eq_nil_iff]
    intro x hx
    simp [(hpre x hx).2.2.2.1]
  rcases hr : w.Run algo ⟨fl.customSearchParams⟩ env with ⟨r, _ | e⟩
  · have ha : afterEnvironment w fl (some env) = ⟨[.validate env none,
        .getAlgorithm fl.with_ algo none,
        .run algo ⟨fl.customSearchParams⟩ env r none, .print r], .next ()⟩ := by
      simp [afterEnvironment, validateEnvironment, resolveAlgorithm, runAlgorithm, Proc.bind,
        hv, hw, hga, hr]
    rw [ha] at hR
    rw [hR]
    simp [hfil, List.filter, Event.isPrint]
  · have ha : afterEnvironment w fl (some env) = ⟨[.validate env none,
        .getAlgorithm fl.with_ algo none,
        .run algo ⟨fl.customSearchParams⟩ env r (some e),
        .stderr ("Error while running algorithm " ++ fl.with_ ++ " on " ++ w.Name env
          ++ ": " ++ e ++ "\n"),
        .osExit 1], .exited 1⟩ := by
      simp [afterEnvironment, validateEnvironment, resolveAlgorithm, runAlgorithm, Proc.bind,
        hv, hw, hga, hr]
    rw [ha] at hR
    rw [hR]
    simp

set_option maxHeartbeats 4000000 in
/-- The local `env` is always assigned before line 63: the nil-interface panic
of the model is unreachable. -/
theorem Run_never_panics (w : World Env Algo File Result) (fl : runFlagsCfg) :
    Event.nilPanic ∉ (Run w fl).trace := by
  rcases resolveEnvironment_paths w fl with
    ⟨hb, h⟩ | ⟨hs, env, e, hg, h⟩ | ⟨hs, env, hg, h⟩ | ⟨hs, f, e, ho, h⟩ |
    ⟨hs, f, env, e, ho, hl, h⟩ | ⟨hs, f, env, ho, hl, h⟩
  · simp [Run_of_exited w fl _ _ h]
  · obtain ⟨h1, h2⟩ := hs
    simp +contextual [onlyOn, onlyLoad, h1, h2, Run_of_exited w fl _ _ h, hg]
  · rcases afterEnvironment_paths w fl env with
      ⟨e, hv, ha⟩ | ⟨hv, hw, ha⟩ | ⟨hv, hw, algo, e, hga, ha⟩ |
      ⟨hv, hw, algo, r, e, hga, hr, ha⟩ | ⟨hv, hw, algo, r, hga, hr, ha⟩
    · obtain ⟨h1, h2⟩ := hs
      simp +contextual [onlyOn, onlyLoad, h1, h2, Run_of_next w fl _ _ h, ha, hg, hv]
    · obtain ⟨h1, h2⟩ := hs
      simp +contextual [onlyOn, onlyLoad, h1, h2, Run_of_next w fl _ _ h, ha, hg, hv, hw]
    · obtain ⟨h1, h2⟩ := hs
      simp +contextual [onlyOn, onlyLoad, h1, h2, Run_of_next w fl _ _ h, ha, hg, hv, hw, hga]
    · obtain ⟨h1, h2⟩ := hs
      simp +contextual [onlyOn, onlyLoad, h1, h2, Run_of_next w fl _ _ h, ha, hg, hv, hw, hga, hr]
    · obtain ⟨h1, h2⟩ := hs
      simp +contextual [onlyOn, onlyLoad, h1, h2, Run_of_next w fl _ _ h, ha, hg, hv, hw, hga, hr]
  · obtain ⟨h1, h2⟩ := hs
    simp +contextual [onlyOn, onlyLoad, h1, h2, Run_of_exited w fl _ _ h, ho]
  · obtain ⟨h1, h2⟩ := hs
    simp +contextual [onlyOn, onlyLoad, h1, h2, Run_of_exited w fl _ _ h, ho, hl]
  · rcases afterEnvironment_paths w fl env with
      ⟨e, hv, ha⟩ | ⟨hv, hw, ha⟩ | ⟨hv, hw, algo, e, hga, ha⟩ |
      ⟨hv, hw, algo, r, e, hga, hr, ha⟩ | ⟨hv, hw, algo, r, hga, hr, ha⟩
    · obtain ⟨h1, h2⟩ := hs
      simp +contextual [onlyOn, onlyLoad, h1, h2, Run_of_next w fl _ _ h, ha, ho, hl, hv]
    · obtain ⟨h1, h2⟩ := hs
      simp +contextual [onlyOn, onlyLoad, h1, h2, Run_of_next w fl _ _ h, ha, ho, hl, hv, hw]
    · obtain ⟨h1, h2⟩ := hs
      simp +contextual [onlyOn, onlyLoad, h1, h2, Run_of_next w fl _ _ h, ha, ho, hl, hv, hw, hga]
    · obtain ⟨h1, h2⟩ := hs
      simp +contextual [onlyOn, onlyLoad, h1, h2, Run_of_next w fl _ _ h, ha, ho, hl, hv, hw, hga,
        hr]
    · obtain ⟨h1, h2⟩ := hs
      simp +contextual [onlyOn, onlyLoad, h1, h2, Run_of_next w fl _ _ h, ha, ho, hl, hv, hw, hga,
        hr]

theorem resolveEnvironment_withDiscarded (w : World Env Algo File Result) (fl : runFlagsCfg)
    (help : GoError) (close : File → GoError) :
    (resolveEnvironment (w.withDiscarded help close) fl).flow = (resolveEnvironment w fl).flow ∧
    (resolveEnvironment (w.withDiscarded help close) fl).trace.map Event.forgetDiscarded =
      (resolveEnvironment w fl).trace.map Event.forgetDiscarded := by
  rcases resolveEnvironment_paths w fl with
    ⟨hb, h⟩ | ⟨hs, env, e, hg, h⟩ | ⟨hs, env, hg, h⟩ | ⟨hs, f, e, ho, h⟩ |
    ⟨hs, f, env, e, ho, hl, h⟩ | ⟨hs, f, env, ho, hl, h⟩
  · rw [h]
    rcases hb with ⟨h1, h2⟩ | ⟨h1, h2⟩ <;>
      simp [resolveEnvironment, World.withDiscarded, Event.forgetDiscarded, h1, h2]
  all_goals
    rw [h]
    obtain ⟨h1, h2⟩ := hs
    simp [resolveEnvironment, World.withDiscarded, Event.forgetDiscarded, h1, h2, *]

theorem afterEnvironment_withDiscarded (w : World Env Algo File Result) (fl : runFlagsCfg)
    (help : GoError) (close : File → GoError) (env : Env) :
    (afterEnvironment (w.withDiscarded help close) fl (some env)).flow =
      (afterEnvironment w fl (some env)).flow ∧
    (afterEnvironment (w.withDiscarded help close) fl (some env)).trace.map
        Event.forgetDiscarded =
      (afterEnvironment w fl (some env)).trace.map Event.forgetDiscarded := by
  rcases afterEnvironment_paths w fl env with
    ⟨e, hv, ha⟩ | ⟨hv, hw, ha⟩ | ⟨hv, hw, algo, e, hga, ha⟩ |
    ⟨hv, hw, algo, r, e, hga, hr, ha⟩ | ⟨hv, hw, algo, r, hga, hr, ha⟩
  all_goals
    rw [ha]
    simp [afterEnvironment, validateEnvironment, resolveAlgorithm, runAlgorithm, Proc.bind,
      World.withDiscarded, Event.forgetDiscarded, *]

theorem Run_withDiscarded (w : World Env Algo File Result) (fl : runFlagsCfg)
    (help : GoError) (close : File → GoError) :
    (Run (w.withDiscarded help close) fl).flow = (Run w fl).flow ∧
    (Run (w.withDiscarded help close) fl).trace.map Event.forgetDiscarded =
      (Run w fl).trace.map Event.forgetDiscarded := by
  obtain ⟨hf, ht⟩ := resolveEnvironment_withDiscarded w fl help close
  rcases resolveEnvironment_paths w fl with
    ⟨hb, h⟩ | ⟨hs, env, e, hg, h⟩ | ⟨hs, env, hg, h⟩ | ⟨hs, f, e, ho, h⟩ |
    ⟨hs, f, env, e, ho, hl, h⟩ | ⟨hs, f, env, ho, hl, h⟩
  · rw [h] at hf ht
    simp only [Run, Proc.bind, hf, h]
    exact ⟨trivial, ht⟩
  · rw [h] at hf ht
    simp only [Run, Proc.bind, hf, h]
    exact ⟨trivial, ht⟩
  · obtain ⟨hf2, ht2⟩ := afterEnvironment_withDiscarded w fl help close env
    rw [h] at hf ht
    simp only [Run, Proc.bind, hf, h]
    simp [hf2, ht2, ht]
  · rw [h] at hf ht
    simp only [Run, Proc.bind, hf, h]
    exact ⟨trivial, ht⟩
  · rw [h] at hf ht
    simp only [Run, Proc.bind, hf, h]
    exact ⟨trivial, ht⟩
  · obtain ⟨hf2, ht2⟩ := afterEnvironment_withDiscarded w fl help close env
    rw [h] at hf ht
    simp only [Run, Proc.bind, hf, h]
    simp [hf2, ht2, ht]

end Paths

/-! ## The claims -/

section Claims

variable {Env Algo File Result : Type}

/-- C1: when the environment selection is missing (`--on` and `--load` both
empty) or conflicting (both set), the handler prints the usage help and ends the
process with status 1, and these are its only events: no environment is looked
up, no file is opened, nothing is validated, no algorithm is looked up or run. -/
theorem C1_bad_selection_prints_help (w : World Env Algo File Result) (fl : runFlagsCfg)
    (h : selectionMissing fl ∨ selectionConflicting fl) :
    (Run w fl).trace = [.help w.Help, .osExit 1] ∧
    (Run w fl).flow = .exited 1 ∧
    exitStatus (Run w fl).flow = 1 ∧
    ∀ ev ∈ (Run w fl).trace, ev.isStep = false ∧ ev.isClose = false := by
  have hr : Run w fl = ⟨[.help w.Help, .osExit 1], .exited 1⟩ := by
    unfold selectionMissing selectionConflicting at h
    rcases h with ⟨h1, h2⟩ | ⟨h1, h2⟩ <;>
      simp [Run, Proc.bind, resolveEnvironment, h1, h2]
  simp [hr, exitStatus, Event.isStep, Event.isClose]

theorem C1_bad_selection_prints_help_witness :
    (selectionMissing initFlags ∨ selectionConflicting initFlags) ∧
    (Run okWorld initFlags).trace = [.help okWorld.Help, .osExit 1] ∧
    (Run okWorld initFlags).flow = .exited 1 ∧
    exitStatus (Run okWorld initFlags).flow = 1 ∧
    ∀ ev ∈ (Run okWorld initFlags).trace, ev.isStep = false ∧ ev.isClose = false :=
  ⟨Or.inl (by decide), C1_bad_selection_prints_help okWorld initFlags (Or.inl (by decide))⟩

/-- C2, as stated, fails: with `--on maze`, no `--with`, and a lookup of `maze`
that returns an error, the handler reports the lookup error and exits; the usage
help is never printed. -/
theorem C2_counterexample :
    noWithFlags.with_ = "" ∧
    (Run noEnvWorld noWithFlags).trace =
      [.getEnvironment "maze" "" (some "unknown environment"),
       .stderr "Could not get pre-made environment maze: unknown environment\n",
       .osExit 1] ∧
    (Run noEnvWorld noWithFlags).trace.any Event.isHelp = false := by
  decide

/-- C2 (amended): when `--with` is empty the handler always ends the process with
status 1 and never looks up or runs an algorithm.  The usage help is printed
whenever no environment step (lookup, open, load, validation) returned an error;
when one of them did, its message goes to the error stream and no help is
printed. -/
theorem C2_no_algorithm_selected (w : World Env Algo File Result) (fl : runFlagsCfg)
    (hw : fl.with_ = "") :
    (Run w fl).flow = .exited 1 ∧
    exitStatus (Run w fl).flow = 1 ∧
    (∀ ev ∈ (Run w fl).trace, ev.isGetAlgorithm = false ∧ ev.isRun = false) ∧
    ((∀ ev ∈ (Run w fl).trace, ev.isStep = true → ev.err = none) →
      (Run w fl).trace.any Event.isHelp = true ∧
      (Run w fl).trace.any Event.isStderr = false) ∧
    ((∃ ev ∈ (Run w fl).trace, ev.isStep = true ∧ ev.err ≠ none) →
      (Run w fl).trace.any Event.isHelp = false ∧
      (Run w fl).trace.any Event.isStderr = true) := by
  rcases resolveEnvironment_paths w fl with
    ⟨-, h⟩ | ⟨-, env, e, -, h⟩ | ⟨-, env, -, h⟩ | ⟨-, f, e, -, h⟩ |
    ⟨-, f, env, e, -, -, h⟩ | ⟨-, f, env, -, -, h⟩
  · simp [Run_of_exited w fl _ _ h, exitStatus, Event.isGetAlgorithm, Event.isRun,
      Event.isStep, Event.isHelp, Event.isStderr, Event.err]
  · simp [Run_of_exited w fl _ _ h, exitStatus, Event.isGetAlgorithm, Event.isRun,
      Event.isStep, Event.isHelp, Event.isStderr, Event.err]
  · rw [Run_of_next w fl _ _ h]
    rcases afterEnvironment_paths w fl env with
      ⟨e, -, ha⟩ | ⟨-, -, ha⟩ | ⟨-, hne, -⟩ | ⟨-, hne, -⟩ | ⟨-, hne, -⟩
    · simp [ha, exitStatus, Event.isGetAlgorithm, Event.isRun,
        Event.isStep, Event.isHelp, Event.isStderr, Event.err]
    · simp [ha, exitStatus, Event.isGetAlgorithm, Event.isRun,
        Event.isStep, Event.isHelp, Event.isStderr, Event.err]
    · exact absurd hw hne
    · exact absurd hw hne
    · exact absurd hw hne
  · simp [Run_of_exited w fl _ _ h, exitStatus, Event.isGetAlgorithm, Event.isRun,
      Event.isStep, Event.isHelp, Event.isStderr, Event.err]
  · simp [Run_of_exited w fl _ _ h, exitStatus, Event.isGetAlgorithm, Event.isRun,
      Event.isStep, Event.isHelp, Event.isStderr, Event.err]
  · rw [Run_of_next w fl _ _ h]
    rcases afterEnvironment_paths w fl env with
      ⟨e, -, ha⟩ | ⟨-, -, ha⟩ | ⟨-, hne, -⟩ | ⟨-, hne, -⟩ | ⟨-, hne, -⟩
    · simp [ha, exitStatus, Event.isGetAlgorithm, Event.isRun,
        Event.isStep, Event.isHelp, Event.isStderr, Event.err]
    · simp [ha, exitStatus, Event.isGetAlgorithm, Event.isRun,
        Event.isStep, Event.isHelp, Event.isStderr, Event.err]
    · exact absurd hw hne
    · exact absurd hw hne
    · exact absurd hw hne

theorem C2_no_algorithm_selected_witness :
    noWithFlags.with_ = "" ∧
    (Run okWorld noWithFlags).flow = .exited 1 ∧
    exitStatus (Run okWorld noWithFlags).flow = 1 ∧
    (∀ ev ∈ (Run okWorld noWithFlags).trace, ev.isGetAlgorithm = false ∧ ev.isRun = false) ∧
    ((∀ ev ∈ (Run okWorld noWithFlags).trace, ev.isStep = true → ev.err = none) →
      (Run okWorld noWithFlags).trace.any Event.isHelp = true ∧
      (Run okWorld noWithFlags).trace.any Event.isStderr = false) ∧
    ((∃ ev ∈ (Run okWorld noWithFlags).trace, ev.isStep = true ∧ ev.err ≠ none) →
      (Run okWorld noWithFlags).trace.any Event.isHelp = false ∧
      (Run okWorld noWithFlags).trace.any Event.isStderr = true) :=
  ⟨by decide, C2_no_algorithm_selected okWorld noWithFlags (by decide)⟩

/-- C3: when exactly one of `--on` / `--load` is set, `--with` is non-empty and
every pipeline call made during the execution (environment lookup or open and
load, `Validate`, `GetAlgorithm`, `Run`) returned a nil error, the handler
returns normally (`os.Exit` is never called, status 0), writes nothing to the
error stream, and prints exactly once: the `Result` that `Run` returned, as its
last action.  `Result` is an arbitrary type, so this covers every result value,
one that reports "no goal found" included. -/
theorem C3_success_prints_result (w : World Env Algo File Result) (fl : runFlagsCfg)
    (hsel : onlyOn fl ∨ onlyLoad fl) (hwith : fl.with_ ≠ "")
    (hok : ∀ ev ∈ (Run w fl).trace, ev.isStep = true → ev.err = none) :
    (Run w fl).flow = .next () ∧
    exitStatus (Run w fl).flow = 0 ∧
    (∀ ev ∈ (Run w fl).trace, ev.isStderr = false ∧ ev.isTerminate = false) ∧
    ∃ algo env r,
      w.Run algo ⟨fl.customSearchParams⟩ env = (r, none) ∧
      Event.run algo ⟨fl.customSearchParams⟩ env r none ∈ (Run w fl).trace ∧
      (Run w fl).trace.filter Event.isPrint = [.print r] ∧
      (Run w fl).trace.getLast? = some (.print r) := by
  have hbad : ¬ (selectionMissing fl ∨ selectionConflicting fl) := by
    unfold selectionMissing selectionConflicting
    unfold onlyOn onlyLoad at hsel
    rcases hsel with ⟨h1, h2⟩ | ⟨h1, h2⟩ <;> simp [h1, h2]
  rcases resolveEnvironment_paths w fl with
    ⟨hb, -⟩ | ⟨-, env, e, -, h⟩ | ⟨-, env, -, h⟩ | ⟨-, f, e, -, h⟩ |
    ⟨-, f, env, e, -, -, h⟩ | ⟨-, f, env, -, -, h⟩
  · exact absurd hb hbad
  · simp [Run_of_exited w fl _ _ h, Event.isStep, Event.err] at hok
  · rw [Run_of_next w fl _ _ h] at hok ⊢
    rcases afterEnvironment_paths w fl env with
      ⟨e, -, ha⟩ | ⟨-, he, -⟩ | ⟨-, -, algo, e, -, ha⟩ | ⟨-, -, algo, r, e, -, -, ha⟩ |
      ⟨-, -, algo, r, -, hr, ha⟩
    · simp [ha, Event.isStep, Event.err] at hok
    · exact absurd he hwith
    · simp [ha, Event.isStep, Event.err] at hok
    · simp [ha, Event.isStep, Event.err] at hok
    · refine ⟨by simp [ha], by simp [ha, exitStatus], ?_, algo, env, r, hr, ?_, ?_, ?_⟩
      · simp [ha, Event.isStderr, Event.isTerminate]
      · simp [ha]
      · simp [ha, List.filter, Event.isPrint]
      · simp [ha]
  · simp [Run_of_exited w fl _ _ h, Event.isStep, Event.err] at hok
  · simp [Run_of_exited w fl _ _ h, Event.isStep, Event.err] at hok
  · rw [Run_of_next w fl _ _ h] at hok ⊢
    rcases afterEnvironment_paths w fl env with
      ⟨e, -, ha⟩ | ⟨-, he, -⟩ | ⟨-, -, algo, e, -, ha⟩ | ⟨-, -, algo, r, e, -, -, ha⟩ |
      ⟨-, -, algo, r, -, hr, ha⟩
    · simp [ha, Event.isStep, Event.err] at hok
    · exact absurd he hwith
    · simp [ha, Event.isStep, Event.err] at hok
    · simp [ha, Event.isStep, Event.err] at hok
    · refine ⟨by simp [ha], by simp [ha, exitStatus], ?_, algo, env, r, hr, ?_, ?_, ?_⟩
      · simp [ha, Event.isStderr, Event.isTerminate]
      · simp [ha]
      · simp [ha, List.filter, Event.isPrint]
      · simp [ha]

theorem C3_success_prints_result_witness :
    (onlyOn onFlags ∨ onlyLoad onFlags) ∧ onFlags.with_ ≠ "" ∧
    (∀ ev ∈ (Run okWorld onFlags).trace, ev.isStep = true → ev.err = none) ∧
    (Run okWorld onFlags).flow = .next () ∧
    exitStatus (Run okWorld onFlags).flow = 0 ∧
    (∀ ev ∈ (Run okWorld onFlags).trace, ev.isStderr = false ∧ ev.isTerminate = false) ∧
    ∃ algo env r,
      okWorld.Run algo ⟨onFlags.customSearchParams⟩ env = (r, none) ∧
      Event.run algo ⟨onFlags.customSearchParams⟩ env r none ∈ (Run okWorld onFlags).trace ∧
      (Run okWorld onFlags).trace.filter Event.isPrint = [.print r] ∧
      (Run okWorld onFlags).trace.getLast? = some (.print r) :=
  ⟨by decide, by decide, by decide,
    C3_success_prints_result okWorld onFlags (by decide) (by decide) (by decide)⟩

/-- C4: with a valid selection of flags (`--with` set, and exactly one of `--on`
/ `--load`, which is part of each case below), whenever a pipeline call returns
an error, the handler reports it.  Stated on what the collaborators return, for
each of the six calls:
`GetEnvironment`; `os.Open`; `LoadEnvironmentFrom` after a successful open;
`Validate` of the selected environment; `GetAlgorithm` after a successful
validation; `Algorithm.Run` after a successful algorithm lookup.  In each case
the failing call is followed only by the listed cleanup (the `Close` of the
opened file, on the load path only), one message on the error stream that
contains the error's text, and `os.Exit(1)`: no later pipeline call is made and
no `Result` is printed. -/
theorem C4_failure_reported (w : World Env Algo File Result) (fl : runFlagsCfg)
    (hwith : fl.with_ ≠ "") :
    (∀ env e, onlyOn fl → w.GetEnvironment fl.on_ = (env, some e) →
      ReportsFailure (Run w fl) (.getEnvironment fl.on_ env (some e)) [] e) ∧
    (∀ f e, onlyLoad fl → w.Open fl.load = (f, some e) →
      ReportsFailure (Run w fl) (.osOpen fl.load f (some e)) [] e) ∧
    (∀ f env e, onlyLoad fl → w.Open fl.load = (f, none) →
      w.LoadEnvironmentFrom f = (env, some e) →
      ReportsFailure (Run w fl) (.loadEnvironmentFrom f env (some e))
        [.close f (w.Close f)] e) ∧
    (∀ env e, EnvSelected w fl env → w.Validate env = some e →
      ReportsFailure (Run w fl) (.validate env (some e)) [] e) ∧
    (∀ env algo e, EnvSelected w fl env → w.Validate env = none →
      w.GetAlgorithm fl.with_ = (algo, some e) →
      ReportsFailure (Run w fl) (.getAlgorithm fl.with_ algo (some e)) [] e) ∧
    (∀ env algo r e, EnvSelected w fl env → w.Validate env = none →
      w.GetAlgorithm fl.with_ = (algo, none) →
      w.Run algo ⟨fl.customSearchParams⟩ env = (r, some e) →
      ReportsFailure (Run w fl) (.run algo ⟨fl.customSearchParams⟩ env r (some e)) [] e) := by
  obtain ⟨h1, h2, h3, h4, h5, h6⟩ := pipeline_failures_reported w fl
  exact ⟨h1, h2, h3, h4, fun env algo e hs hv hga => h5 env algo e hs hv hwith hga,
    fun env algo r e hs hv hga hr => h6 env algo r e hs hv hwith hga hr⟩

theorem C4_failure_reported_witness :
    onFlags.with_ ≠ "" ∧
    EnvSelected runFailsWorld onFlags "maze" ∧
    runFailsWorld.Validate "maze" = none ∧
    runFailsWorld.GetAlgorithm onFlags.with_ = ("bfs", none) ∧
    runFailsWorld.Run "bfs" ⟨onFlags.customSearchParams⟩ "maze" =
      (false, some "out of memory") ∧
    ReportsFailure (Run runFailsWorld onFlags)
      (.run "bfs" ⟨onFlags.customSearchParams⟩ "maze" false (some "out of memory")) []
      "out of memory" :=
  ⟨by decide, Or.inl ⟨by decide, rfl⟩, rfl, rfl, rfl,
    (C4_failure_reported runFailsWorld onFlags (by decide)).2.2.2.2.2
      "maze" "bfs" false "out of memory" (Or.inl ⟨by decide, rfl⟩) rfl rfl rfl⟩

set_option maxHeartbeats 4000000 in
/-- C5: selection is by the given names.  With only `--on` set, no file is
opened or loaded, the only lookup is `GetEnvironment` of the `--on` string, and
every `Validate` and every `Run` gets exactly the environment that lookup
returned; when the lookup succeeds that environment is indeed validated.  With
only `--load` set, `GetEnvironment` is never called, the file opened is the one
at the `--load` path, the load reads that file, and every `Validate` and every
`Run` gets exactly the environment the load returned; when open and load succeed
that environment is indeed validated.  In both cases the only algorithm lookup
is `GetAlgorithm` of the `--with` string, `Run` is called on exactly the
algorithm it returned, and `Run` is called whenever `--with` is set and the
calls before it returned no error. -/
theorem C5_selection_by_name (w : World Env Algo File Result) (fl : runFlagsCfg)
    (hsel : onlyOn fl ∨ onlyLoad fl) :
    (onlyOn fl →
      (∀ ev ∈ (Run w fl).trace, ev.isOpen = false ∧ ev.isLoad = false ∧ ev.isClose = false) ∧
      (∀ ev ∈ (Run w fl).trace, ev.isGetEnvironment = true →
        ev = .getEnvironment fl.on_ (w.GetEnvironment fl.on_).1 (w.GetEnvironment fl.on_).2) ∧
      (∀ env err, Event.validate env err ∈ (Run w fl).trace →
        env = (w.GetEnvironment fl.on_).1) ∧
      (∀ algo ctx env r err, Event.run algo ctx env r err ∈ (Run w fl).trace →
        env = (w.GetEnvironment fl.on_).1) ∧
      ((w.GetEnvironment fl.on_).2 = none →
        Event.validate (w.GetEnvironment fl.on_).1 (w.Validate (w.GetEnvironment fl.on_).1)
          ∈ (Run w fl).trace)) ∧
    (onlyLoad fl →
      (∀ ev ∈ (Run w fl).trace, ev.isGetEnvironment = false) ∧
      (∀ ev ∈ (Run w fl).trace, ev.isOpen = true →
        ev = .osOpen fl.load (w.Open fl.load).1 (w.Open fl.load).2) ∧
      (∀ ev ∈ (Run w fl).trace, ev.isLoad = true →
        ev = .loadEnvironmentFrom (w.Open fl.load).1
          (w.LoadEnvironmentFrom (w.Open fl.load).1).1
          (w.LoadEnvironmentFrom (w.Open fl.load).1).2) ∧
      (∀ env err, Event.validate env err ∈ (Run w fl).trace →
        env = (w.LoadEnvironmentFrom (w.Open fl.load).1).1) ∧
      (∀ algo ctx env r err, Event.run algo ctx env r err ∈ (Run w fl).trace →
        env = (w.LoadEnvironmentFrom (w.Open fl.load).1).1) ∧
      ((w.Open fl.load).2 = none → (w.LoadEnvironmentFrom (w.Open fl.load).1).2 = none →
        Event.validate (w.LoadEnvironmentFrom (w.Open fl.load).1).1
          (w.Validate (w.LoadEnvironmentFrom (w.Open fl.load).1).1) ∈ (Run w fl).trace)) ∧
    (∀ ev ∈ (Run w fl).trace, ev.isGetAlgorithm = true →
      ev = .getAlgorithm fl.with_ (w.GetAlgorithm fl.with_).1 (w.GetAlgorithm fl.with_).2) ∧
    (∀ algo ctx env r err, Event.run algo ctx env r err ∈ (Run w fl).trace →
      algo = (w.GetAlgorithm fl.with_).1 ∧ (r, err) = w.Run algo ctx env) ∧
    (fl.with_ ≠ "" →
      (∀ ev ∈ (Run w fl).trace, ev.isStep = true → ev.isRun = false → ev.err = none) →
      ∃ ev ∈ (Run w fl).trace, ev.isRun = true) := by
  rcases resolveEnvironment_paths w fl with
    ⟨hb, h⟩ | ⟨hs, env, e, hg, h⟩ | ⟨hs, env, hg, h⟩ | ⟨hs, f, e, ho, h⟩ |
    ⟨hs, f, env, e, ho, hl, h⟩ | ⟨hs, f, env, ho, hl, h⟩
  · rcases hb with ⟨h1, h2⟩ | ⟨h1, h2⟩ <;>
      simp [onlyOn, onlyLoad, h1, h2] at hsel
  · obtain ⟨h1, h2⟩ := hs
    simp +contextual [onlyOn, onlyLoad, h1, h2, Run_of_exited w fl _ _ h, hg, Event.isStep,
      Event.err, Event.isOpen, Event.isLoad, Event.isClose, Event.isGetEnvironment,
      Event.isGetAlgorithm, Event.isRun]
  · rcases afterEnvironment_paths w fl env with
      ⟨e, hv, ha⟩ | ⟨hv, hw, ha⟩ | ⟨hv, hw, algo, e, hga, ha⟩ |
      ⟨hv, hw, algo, r, e, hga, hr, ha⟩ | ⟨hv, hw, algo, r, hga, hr, ha⟩
    · obtain ⟨h1, h2⟩ := hs
      simp +contextual [onlyOn, onlyLoad, h1, h2, Run_of_next w fl _ _ h, ha, hg, hv,
        Event.isStep, Event.err, Event.isOpen, Event.isLoad, Event.isClose,
        Event.isGetEnvironment, Event.isGetAlgorithm, Event.isRun]
    · obtain ⟨h1, h2⟩ := hs
      simp +contextual [onlyOn, onlyLoad, h1, h2, Run_of_next w fl _ _ h, ha, hg, hv, hw,
        Event.isStep, Event.err, Event.isOpen, Event.isLoad, Event.isClose,
        Event.isGetEnvironment, Event.isGetAlgorithm, Event.isRun]
    · obtain ⟨h1, h2⟩ := hs
      simp +contextual [onlyOn, onlyLoad, h1, h2, Run_of_next w fl _ _ h, ha, hg, hv, hw, hga,
        Event.isStep, Event.err, Event.isOpen, Event.isLoad, Event.isClose,
        Event.isGetEnvironment, Event.isGetAlgorithm, Event.isRun]
    · obtain ⟨h1, h2⟩ := hs
      simp +contextual [onlyOn, onlyLoad, h1, h2, Run_of_next w fl _ _ h, ha, hg, hv, hw, hga, hr,
        Event.isStep, Event.err, Event.isOpen, Event.isLoad, Event.isClose,
        Event.isGetEnvironment, Event.isGetAlgorithm, Event.isRun]
    · obtain ⟨h1, h2⟩ := hs
      simp +contextual [onlyOn, onlyLoad, h1, h2, Run_of_next w fl _ _ h, ha, hg, hv, hw, hga, hr,
        Event.isStep, Event.err, Event.isOpen, Event.isLoad, Event.isClose,
        Event.isGetEnvironment, Event.isGetAlgorithm, Event.isRun]
  · obtain ⟨h1, h2⟩ := hs
    simp +contextual [onlyOn, onlyLoad, h1, h2, Run_of_exited w fl _ _ h, ho, Event.isStep,
      Event.err, Event.isOpen, Event.isLoad, Event.isClose, Event.isGetEnvironment,
      Event.isGetAlgorithm, Event.isRun]
  · obtain ⟨h1, h2⟩ := hs
    simp +contextual [onlyOn, onlyLoad, h1, h2, Run_of_exited w fl _ _ h, ho, hl, Event.isStep,
      Event.err, Event.isOpen, Event.isLoad, Event.isClose, Event.isGetEnvironment,
      Event.isGetAlgorithm, Event.isRun]
  · rcases afterEnvironment_paths w fl env with
      ⟨e, hv, ha⟩ | ⟨hv, hw, ha⟩ | ⟨hv, hw, algo, e, hga, ha⟩ |
      ⟨hv, hw, algo, r, e, hga, hr, ha⟩ | ⟨hv, hw, algo, r, hga, hr, ha⟩
    · obtain ⟨h1, h2⟩ := hs
      simp +contextual [onlyOn, onlyLoad, h1, h2, Run_of_next w fl _ _ h, ha, ho, hl, hv,
        Event.isStep, Event.err, Event.isOpen, Event.isLoad, Event.isClose,
        Event.isGetEnvironment, Event.isGetAlgorithm, Event.isRun]
    · obtain ⟨h1, h2⟩ := hs
      simp +contextual [onlyOn, onlyLoad, h1, h2, Run_of_next w fl _ _ h, ha, ho, hl, hv, hw,
        Event.isStep, Event.err, Event.isOpen, Event.isLoad, Event.isClose,
        Event.isGetEnvironment, Event.isGetAlgorithm, Event.isRun]
    · obtain ⟨h1, h2⟩ := hs
      simp +contextual [onlyOn, onlyLoad, h1, h2, Run_of_next w fl _ _ h, ha, ho, hl, hv, hw, hga,
        Event.isStep, Event.err, Event.isOpen, Event.isLoad, Event.isClose,
        Event.isGetEnvironment, Event.isGetAlgorithm, Event.isRun]
    · obtain ⟨h1, h2⟩ := hs
      simp +contextual [onlyOn, onlyLoad, h1, h2, Run_of_next w fl _ _ h, ha, ho, hl, hv, hw, hga,
        hr, Event.isStep, Event.err, Event.isOpen, Event.isLoad, Event.isClose,
        Event.isGetEnvironment, Event.isGetAlgorithm, Event.isRun]
    · obtain ⟨h1, h2⟩ := hs
      simp +contextual [onlyOn, onlyLoad, h1, h2, Run_of_next w fl _ _ h, ha, ho, hl, hv, hw, hga,
        hr, Event.isStep, Event.err, Event.isOpen, Event.isLoad, Event.isClose,
        Event.isGetEnvironment, Event.isGetAlgorithm, Event.isRun]

theorem C5_selection_by_name_witness :
    (onlyOn loadFlags ∨ onlyLoad loadFlags) ∧
    (onlyOn loadFlags →
      (∀ ev ∈ (Run okWorld loadFlags).trace, ev.isOpen = false ∧ ev.isLoad = false ∧ ev.isClose
          = false) ∧
      (∀ ev ∈ (Run okWorld loadFlags).trace, ev.isGetEnvironment = true →
        ev = .getEnvironment loadFlags.on_ (okWorld.GetEnvironment loadFlags.on_).1
            (okWorld.GetEnvironment loadFlags.on_).2) ∧
      (∀ env err, Event.validate env err ∈ (Run okWorld loadFlags).trace →
        env = (okWorld.GetEnvironment loadFlags.on_).1) ∧
      (∀ algo ctx env r err, Event.run algo ctx env r err ∈ (Run okWorld loadFlags).trace →
        env = (okWorld.GetEnvironment loadFlags.on_).1) ∧
      ((okWorld.GetEnvironment loadFlags.on_).2 = none →
        Event.validate (okWorld.GetEnvironment loadFlags.on_).1 (okWorld.Validate
            (okWorld.GetEnvironment loadFlags.on_).1)
          ∈ (Run okWorld loadFlags).trace)) ∧
    (onlyLoad loadFlags →
      (∀ ev ∈ (Run okWorld loadFlags).trace, ev.isGetEnvironment = false) ∧
      (∀ ev ∈ (Run okWorld loadFlags).trace, ev.isOpen = true →
        ev = .osOpen loadFlags.load (okWorld.Open loadFlags.load).1 (okWorld.Open
            loadFlags.load).2) ∧
      (∀ ev ∈ (Run okWorld loadFlags).trace, ev.isLoad = true →
        ev = .loadEnvironmentFrom (okWorld.Open loadFlags.load).1
          (okWorld.LoadEnvironmentFrom (okWorld.Open loadFlags.load).1).1
          (okWorld.LoadEnvironmentFrom (okWorld.Open loadFlags.load).1).2) ∧
      (∀ env err, Event.validate env err ∈ (Run okWorld loadFlags).trace →
        env = (okWorld.LoadEnvironmentFrom (okWorld.Open loadFlags.load).1).1) ∧
      (∀ algo ctx env r err, Event.run algo ctx env r err ∈ (Run okWorld loadFlags).trace →
        env = (okWorld.LoadEnvironmentFrom (okWorld.Open loadFlags.load).1).1) ∧
      ((okWorld.Open loadFlags.load).2 = none → (okWorld.LoadEnvironmentFrom (okWorld.Open
          loadFlags.load).1).2 = none →
        Event.validate (okWorld.LoadEnvironmentFrom (okWorld.Open loadFlags.load).1).1
          (okWorld.Validate (okWorld.LoadEnvironmentFrom (okWorld.Open loadFlags.load).1).1) ∈
              (Run okWorld loadFlags).trace)) ∧
    (∀ ev ∈ (Run okWorld loadFlags).trace, ev.isGetAlgorithm = true →
      ev = .getAlgorithm loadFlags.with_ (okWorld.GetAlgorithm loadFlags.with_).1
          (okWorld.GetAlgorithm loadFlags.with_).2) ∧
    (∀ algo ctx env r err, Event.run algo ctx env r err ∈ (Run okWorld loadFlags).trace →
      algo = (okWorld.GetAlgorithm loadFlags.with_).1 ∧ (r, err) = okWorld.Run algo ctx env) ∧
    (loadFlags.with_ ≠ "" →
      (∀ ev ∈ (Run okWorld loadFlags).trace, ev.isStep = true → ev.isRun = false → ev.err = none) →
      ∃ ev ∈ (Run okWorld loadFlags).trace, ev.isRun = true) :=
  ⟨by decide, C5_selection_by_name okWorld loadFlags (by decide)⟩

/-- C6: the context handed to `Algorithm.Run` carries exactly the `--params`
mapping of the flags.  For every `Run` call of an execution the context is the
flag map (the same lookup for every key), and the recorded result and error are
those `Run` returns when applied to the flag map.  Whenever the environment is
selected and validated and the algorithm is found, `Run` is indeed called with
the flag map, and a result it returns without error for that map is the one
printed.  When the flag still holds the default installed by `init`, every
lookup in the context is `none`. -/
theorem C6_params_passed_through (w : World Env Algo File Result) (fl : runFlagsCfg) :
    (∀ algo ctx env r err, Event.run algo ctx env r err ∈ (Run w fl).trace →
      ctx.CustomSearchParams = fl.customSearchParams ∧
      (∀ key, ctx.CustomSearchParams.lookup key = fl.customSearchParams.lookup key) ∧
      (r, err) = w.Run algo ⟨fl.customSearchParams⟩ env ∧
      (fl.customSearchParams = initFlags.customSearchParams →
        ∀ key, ctx.CustomSearchParams.lookup key = none)) ∧
    (∀ env algo, EnvSelected w fl env → w.Validate env = none → fl.with_ ≠ "" →
      w.GetAlgorithm fl.with_ = (algo, none) →
      Event.run algo ⟨fl.customSearchParams⟩ env
          (w.Run algo ⟨fl.customSearchParams⟩ env).1
          (w.Run algo ⟨fl.customSearchParams⟩ env).2 ∈ (Run w fl).trace ∧
      ((w.Run algo ⟨fl.customSearchParams⟩ env).2 = none →
        (Run w fl).trace.filter Event.isPrint =
          [.print (w.Run algo ⟨fl.customSearchParams⟩ env).1])) := by
  refine ⟨?_, fun env algo hs hv hw hga => run_called_with_params w fl env algo hs hv hw hga⟩
  intro algo ctx env r err hmem
  obtain ⟨hctx, hres⟩ := run_event_call w fl algo ctx env r err hmem
  subst hctx
  refine ⟨rfl, fun _ => rfl, hres, fun h0 key => ?_⟩
  show fl.customSearchParams.lookup key = none
  rw [h0]
  rfl

theorem C6_params_passed_through_witness :
    EnvSelected paramWorld onFlags "maze" ∧
    paramWorld.Validate "maze" = none ∧ onFlags.with_ ≠ "" ∧
    paramWorld.GetAlgorithm onFlags.with_ = ("bfs", none) ∧
    paramWorld.Run "bfs" ⟨[("depth", "3")]⟩ "maze" = (true, none) ∧
    paramWorld.Run "bfs" ⟨[]⟩ "maze" = (false, none) ∧
    Event.run "bfs" ⟨onFlags.customSearchParams⟩ "maze"
        (paramWorld.Run "bfs" ⟨onFlags.customSearchParams⟩ "maze").1
        (paramWorld.Run "bfs" ⟨onFlags.customSearchParams⟩ "maze").2
      ∈ (Run paramWorld onFlags).trace ∧
    ((paramWorld.Run "bfs" ⟨onFlags.customSearchParams⟩ "maze").2 = none →
      (Run paramWorld onFlags).trace.filter Event.isPrint =
        [.print (paramWorld.Run "bfs" ⟨onFlags.customSearchParams⟩ "maze").1]) :=
  ⟨Or.inl ⟨by decide, rfl⟩, rfl, by decide, rfl, by decide, by decide,
    (C6_params_passed_through paramWorld onFlags).2 "maze" "bfs"
      (Or.inl ⟨by decide, rfl⟩) rfl (by decide) rfl⟩

set_option maxHeartbeats 4000000 in
/-- C7: in every execution `Algorithm.Run` is called at most once; each `Run`
call is on an environment for which `Validate` returned nil, and that `Validate`
call comes before the `Run` call in the execution; after a failed validation,
or without any validation, no algorithm is run. -/
theorem C7_run_after_validate (w : World Env Algo File Result) (fl : runFlagsCfg) :
    ((Run w fl).trace.filter Event.isRun).length ≤ 1 ∧
    (∀ algo ctx env r err, Event.run algo ctx env r err ∈ (Run w fl).trace →
      w.Validate env = none ∧
      Event.validate env none ∈ before Event.isRun (Run w fl).trace) ∧
    (∀ env e, Event.validate env (some e) ∈ (Run w fl).trace →
      ∀ x ∈ (Run w fl).trace, x.isRun = false) ∧
    ((∀ x ∈ (Run w fl).trace, x.isValidate = false) →
      ∀ x ∈ (Run w fl).trace, x.isRun = false) := by
  rcases resolveEnvironment_paths w fl with
    ⟨hb, h⟩ | ⟨hs, env, e, hg, h⟩ | ⟨hs, env, hg, h⟩ | ⟨hs, f, e, ho, h⟩ |
    ⟨hs, f, env, e, ho, hl, h⟩ | ⟨hs, f, env, ho, hl, h⟩
  · simp [Run_of_exited w fl _ _ h, Event.isRun, Event.isValidate, List.filter]
  · obtain ⟨h1, h2⟩ := hs
    simp +contextual [onlyOn, onlyLoad, h1, h2, Run_of_exited w fl _ _ h, hg, before,
      List.takeWhile, List.filter, Event.isRun, Event.isValidate]
  · rcases afterEnvironment_paths w fl env with
      ⟨e, hv, ha⟩ | ⟨hv, hw, ha⟩ | ⟨hv, hw, algo, e, hga, ha⟩ |
      ⟨hv, hw, algo, r, e, hga, hr, ha⟩ | ⟨hv, hw, algo, r, hga, hr, ha⟩
    · obtain ⟨h1, h2⟩ := hs
      simp +contextual [onlyOn, onlyLoad, h1, h2, Run_of_next w fl _ _ h, ha, hg, hv, before,
        List.takeWhile, List.filter, Event.isRun, Event.isValidate]
    · obtain ⟨h1, h2⟩ := hs
      simp +contextual [onlyOn, onlyLoad, h1, h2, Run_of_next w fl _ _ h, ha, hg, hv, hw, before,
        List.takeWhile, List.filter, Event.isRun, Event.isValidate]
    · obtain ⟨h1, h2⟩ := hs
      simp +contextual [onlyOn, onlyLoad, h1, h2, Run_of_next w fl _ _ h, ha, hg, hv, hw, hga,
        before, List.takeWhile, List.filter, Event.isRun, Event.isValidate]
    · obtain ⟨h1, h2⟩ := hs
      simp +contextual [onlyOn, onlyLoad, h1, h2, Run_of_next w fl _ _ h, ha, hg, hv, hw, hga, hr,
        before, List.takeWhile, List.filter, Event.isRun, Event.isValidate]
    · obtain ⟨h1, h2⟩ := hs
      simp +contextual [onlyOn, onlyLoad, h1, h2, Run_of_next w fl _ _ h, ha, hg, hv, hw, hga, hr,
        before, List.takeWhile, List.filter, Event.isRun, Event.isValidate]
  · obtain ⟨h1, h2⟩ := hs
    simp +contextual [onlyOn, onlyLoad, h1, h2, Run_of_exited w fl _ _ h, ho, before,
      List.takeWhile, List.filter, Event.isRun, Event.isValidate]
  · obtain ⟨h1, h2⟩ := hs
    simp +contextual [onlyOn, onlyLoad, h1, h2, Run_of_exited w fl _ _ h, ho, hl, before,
      List.takeWhile, List.filter, Event.isRun, Event.isValidate]
  · rcases afterEnvironment_paths w fl env with
      ⟨e, hv, ha⟩ | ⟨hv, hw, ha⟩ | ⟨hv, hw, algo, e, hga, ha⟩ |
      ⟨hv, hw, algo, r, e, hga, hr, ha⟩ | ⟨hv, hw, algo, r, hga, hr, ha⟩
    · obtain ⟨h1, h2⟩ := hs
      simp +contextual [onlyOn, onlyLoad, h1, h2, Run_of_next w fl _ _ h, ha, ho, hl, hv, before,
        List.takeWhile, List.filter, Event.isRun, Event.isValidate]
    · obtain ⟨h1, h2⟩ := hs
      simp +contextual [onlyOn, onlyLoad, h1, h2, Run_of_next w fl _ _ h, ha, ho, hl, hv, hw,
        before, List.takeWhile, List.filter, Event.isRun, Event.isValidate]
    · obtain ⟨h1, h2⟩ := hs
      simp +contextual [onlyOn, onlyLoad, h1, h2, Run_of_next w fl _ _ h, ha, ho, hl, hv, hw, hga,
        before, List.takeWhile, List.filter, Event.isRun, Event.isValidate]
    · obtain ⟨h1, h2⟩ := hs
      simp +contextual [onlyOn, onlyLoad, h1, h2, Run_of_next w fl _ _ h, ha, ho, hl, hv, hw, hga,
        hr, before, List.takeWhile, List.filter, Event.isRun, Event.isValidate]
    · obtain ⟨h1, h2⟩ := hs
      simp +contextual [onlyOn, onlyLoad, h1, h2, Run_of_next w fl _ _ h, ha, ho, hl, hv, hw, hga,
        hr, before, List.takeWhile, List.filter, Event.isRun, Event.isValidate]

theorem C7_run_after_validate_witness :
    Event.run "bfs" ⟨[("depth", "3")]⟩ "maze" false none ∈ (Run okWorld onFlags).trace ∧
    ((Run okWorld onFlags).trace.filter Event.isRun).length ≤ 1 ∧
    (∀ algo ctx env r err, Event.run algo ctx env r err ∈ (Run okWorld onFlags).trace →
      okWorld.Validate env = none ∧
      Event.validate env none ∈ before Event.isRun (Run okWorld onFlags).trace) ∧
    (∀ env e, Event.validate env (some e) ∈ (Run okWorld onFlags).trace →
      ∀ x ∈ (Run okWorld onFlags).trace, x.isRun = false) ∧
    ((∀ x ∈ (Run okWorld onFlags).trace, x.isValidate = false) →
      ∀ x ∈ (Run okWorld onFlags).trace, x.isRun = false) :=
  ⟨by decide, C7_run_after_validate okWorld onFlags⟩

/-- C8 at a failing input: with `--load m.json --with bfs` and a loaded
environment that fails validation, the only message on the error stream is
`Invalid environment: goal unreachable` and the process exits with status 1; the
message does not contain the `--load` path. -/
theorem C8_validation_message_omits_path :
    (Run invalidEnvWorld loadFlags).trace =
      [.osOpen "m.json" "m.json" none,
       .loadEnvironmentFrom "m.json" "env:m.json" none,
       .close "m.json" none,
       .validate "env:m.json" (some "goal unreachable"),
       .stderr "Invalid environment: goal unreachable\n",
       .osExit 1] ∧
    (Run invalidEnvWorld loadFlags).flow = .exited 1 ∧
    ¬ Contains "Invalid environment: goal unreachable\n" loadFlags.load := by
  decide

/-- C9, as stated, fails: an error returned by `Close` (after a successful
load) or by `cmd.Help` (missing selection) is recorded nowhere on the error
stream; in the first execution the handler even returns normally. -/
theorem C9_counterexample :
    Event.close "m.json" (some "close failed") ∈ (Run closeFailsWorld loadFlags).trace ∧
    (Run closeFailsWorld loadFlags).trace.any Event.isStderr = false ∧
    (Run closeFailsWorld loadFlags).flow = .next () ∧
    Event.help (some "help failed") ∈ (Run closeFailsWorld initFlags).trace ∧
    (Run closeFailsWorld initFlags).trace.any Event.isStderr = false := by
  decide

/-- C9 (amended): every non-nil error returned by a pipeline call
(`GetEnvironment`, `os.Open`, `LoadEnvironmentFrom`, `Validate`, `GetAlgorithm`,
`Run`) is inspected and reported: stated on what the collaborators return, the
failing call is followed by a message on the error stream that contains the
error's text and by `os.Exit(1)`.  The error values returned by `Close` and
`cmd.Help` are not inspected: in every execution, replacing them by any other
values changes neither the way the handler ends nor any event other than the
recorded return value of those two calls. -/
theorem C9_pipeline_errors_reported (w : World Env Algo File Result) (fl : runFlagsCfg) :
    ((∀ env e, onlyOn fl → w.GetEnvironment fl.on_ = (env, some e) →
       ReportsFailure (Run w fl) (.getEnvironment fl.on_ env (some e)) [] e) ∧
     (∀ f e, onlyLoad fl → w.Open fl.load = (f, some e) →
       ReportsFailure (Run w fl) (.osOpen fl.load f (some e)) [] e) ∧
     (∀ f env e, onlyLoad fl → w.Open fl.load = (f, none) →
       w.LoadEnvironmentFrom f = (env, some e) →
       ReportsFailure (Run w fl) (.loadEnvironmentFrom f env (some e))
         [.close f (w.Close f)] e) ∧
     (∀ env e, EnvSelected w fl env → w.Validate env = some e →
       ReportsFailure (Run w fl) (.validate env (some e)) [] e) ∧
     (∀ env algo e, EnvSelected w fl env → w.Validate env = none → fl.with_ ≠ "" →
       w.GetAlgorithm fl.with_ = (algo, some e) →
       ReportsFailure (Run w fl) (.getAlgorithm fl.with_ algo (some e)) [] e) ∧
     (∀ env algo r e, EnvSelected w fl env → w.Validate env = none → fl.with_ ≠ "" →
       w.GetAlgorithm fl.with_ = (algo, none) →
       w.Run algo ⟨fl.customSearchParams⟩ env = (r, some e) →
       ReportsFailure (Run w fl) (.run algo ⟨fl.customSearchParams⟩ env r (some e)) [] e)) ∧
    (∀ (help : GoError) (close : File → GoError),
      (Run (w.withDiscarded help close) fl).flow = (Run w fl).flow ∧
      (Run (w.withDiscarded help close) fl).trace.map Event.forgetDiscarded =
        (Run w fl).trace.map Event.forgetDiscarded) :=
  ⟨pipeline_failures_reported w fl, fun help close => Run_withDiscarded w fl help close⟩

theorem C9_pipeline_errors_reported_witness :
    (EnvSelected invalidEnvWorld loadFlags "env:m.json" ∧
      invalidEnvWorld.Validate "env:m.json" = some "goal unreachable" ∧
      ReportsFailure (Run invalidEnvWorld loadFlags)
        (.validate "env:m.json" (some "goal unreachable")) [] "goal unreachable") ∧
    (okWorld.withDiscarded (some "help failed") fun _ => some "close failed")
      = closeFailsWorld ∧
    ((Run (okWorld.withDiscarded (some "help failed") fun _ => some "close failed")
        loadFlags).flow = (Run okWorld loadFlags).flow ∧
      (Run (okWorld.withDiscarded (some "help failed") fun _ => some "close failed")
          loadFlags).trace.map Event.forgetDiscarded =
        (Run okWorld loadFlags).trace.map Event.forgetDiscarded) ∧
    ((Run (okWorld.withDiscarded (some "help failed") fun _ => some "close failed")
        initFlags).flow = (Run okWorld initFlags).flow ∧
      (Run (okWorld.withDiscarded (some "help failed") fun _ => some "close failed")
          initFlags).trace.map Event.forgetDiscarded =
        (Run okWorld initFlags).trace.map Event.forgetDiscarded) :=
  ⟨⟨Or.inr ⟨by decide, "m.json", rfl, rfl⟩, rfl,
      (C9_pipeline_errors_reported invalidEnvWorld loadFlags).1.2.2.2.1
        "env:m.json" "goal unreachable" (Or.inr ⟨by decide, "m.json", rfl, rfl⟩) rfl⟩,
    rfl,
    (C9_pipeline_errors_reported okWorld loadFlags).2 _ _,
    (C9_pipeline_errors_reported okWorld initFlags).2 _ _⟩

set_option maxHeartbeats 4000000 in
/-- C10: on the `--load` path, when `os.Open` succeeds the opened file is
closed exactly once; the `Close` comes after the open and the load, and before
any validation and before the process is terminated, whether the load succeeded
or failed.  When `os.Open` fails, `Close` is never called. -/
theorem C10_file_closed_once (w : World Env Algo File Result) (fl : runFlagsCfg)
    (hsel : onlyLoad fl) :
    ((w.Open fl.load).2 = none →
      (Run w fl).trace.filter Event.isClose =
        [.close (w.Open fl.load).1 (w.Close (w.Open fl.load).1)] ∧
      Event.osOpen fl.load (w.Open fl.load).1 none ∈ before Event.isClose (Run w fl).trace ∧
      (∃ x ∈ before Event.isClose (Run w fl).trace, x.isLoad = true) ∧
      (∀ x ∈ before Event.isClose (Run w fl).trace,
        x.isValidate = false ∧ x.isTerminate = false)) ∧
    ((w.Open fl.load).2 ≠ none → ∀ x ∈ (Run w fl).trace, x.isClose = false) := by
  rcases resolveEnvironment_paths w fl with
    ⟨hb, h⟩ | ⟨hs, env, e, hg, h⟩ | ⟨hs, env, hg, h⟩ | ⟨hs, f, e, ho, h⟩ |
    ⟨hs, f, env, e, ho, hl, h⟩ | ⟨hs, f, env, ho, hl, h⟩
  · rcases hb with ⟨h1, h2⟩ | ⟨h1, h2⟩ <;>
      simp [onlyLoad, h1, h2] at hsel
  · exact absurd hsel.1 hs.1
  · rcases afterEnvironment_paths w fl env with
      ⟨e, hv, ha⟩ | ⟨hv, hw, ha⟩ | ⟨hv, hw, algo, e, hga, ha⟩ |
      ⟨hv, hw, algo, r, e, hga, hr, ha⟩ | ⟨hv, hw, algo, r, hga, hr, ha⟩
    all_goals exact absurd hsel.1 hs.1
  · obtain ⟨h1, h2⟩ := hs
    simp +contextual [onlyOn, onlyLoad, h1, h2, Run_of_exited w fl _ _ h, ho, before,
      List.takeWhile, List.filter, Event.isClose, Event.isLoad, Event.isValidate,
      Event.isTerminate]
  · obtain ⟨h1, h2⟩ := hs
    simp +contextual [onlyOn, onlyLoad, h1, h2, Run_of_exited w fl _ _ h, ho, hl, before,
      List.takeWhile, List.filter, Event.isClose, Event.isLoad, Event.isValidate,
      Event.isTerminate]
  · rcases afterEnvironment_paths w fl env with
      ⟨e, hv, ha⟩ | ⟨hv, hw, ha⟩ | ⟨hv, hw, algo, e, hga, ha⟩ |
      ⟨hv, hw, algo, r, e, hga, hr, ha⟩ | ⟨hv, hw, algo, r, hga, hr, ha⟩
    · obtain ⟨h1, h2⟩ := hs
      simp +contextual [onlyOn, onlyLoad, h1, h2, Run_of_next w fl _ _ h, ha, ho, hl, hv, before,
        List.takeWhile, List.filter, Event.isClose, Event.isLoad, Event.isValidate,
        Event.isTerminate]
    · obtain ⟨h1, h2⟩ := hs
      simp +contextual [onlyOn, onlyLoad, h1, h2, Run_of_next w fl _ _ h, ha, ho, hl, hv, hw,
        before, List.takeWhile, List.filter, Event.isClose, Event.isLoad, Event.isValidate,
        Event.isTerminate]
    · obtain ⟨h1, h2⟩ := hs
      simp +contextual [onlyOn, onlyLoad, h1, h2, Run_of_next w fl _ _ h, ha, ho, hl, hv, hw, hga,
        before, List.takeWhile, List.filter, Event.isClose, Event.isLoad, Event.isValidate,
        Event.isTerminate]
    · obtain ⟨h1, h2⟩ := hs
      simp +contextual [onlyOn, onlyLoad, h1, h2, Run_of_next w fl _ _ h, ha, ho, hl, hv, hw, hga,
        hr, before, List.takeWhile, List.filter, Event.isClose, Event.isLoad, Event.isValidate,
        Event.isTerminate]
    · obtain ⟨h1, h2⟩ := hs
      simp +contextual [onlyOn, onlyLoad, h1, h2, Run_of_next w fl _ _ h, ha, ho, hl, hv, hw, hga,
        hr, before, List.takeWhile, List.filter, Event.isClose, Event.isLoad, Event.isValidate,
        Event.isTerminate]

theorem C10_file_closed_once_witness :
    onlyLoad loadFlags ∧
    ((okWorld.Open loadFlags.load).2 = none →
      (Run okWorld loadFlags).trace.filter Event.isClose =
        [.close (okWorld.Open loadFlags.load).1 (okWorld.Close (okWorld.Open loadFlags.load).1)] ∧
      Event.osOpen loadFlags.load (okWorld.Open loadFlags.load).1 none ∈ before Event.isClose
          (Run okWorld loadFlags).trace ∧
      (∃ x ∈ before Event.isClose (Run okWorld loadFlags).trace, x.isLoad = true) ∧
      (∀ x ∈ before Event.isClose (Run okWorld loadFlags).trace,
        x.isValidate = false ∧ x.isTerminate = false)) ∧
    ((okWorld.Open loadFlags.load).2 ≠ none → ∀ x ∈ (Run okWorld loadFlags).trace, x.isClose =
        false) :=
  ⟨by decide, C10_file_closed_once okWorld loadFlags (by decide)⟩

end Claims

end GoSearch
